import Mathlib

/-!
Verification of the OpenMOC CSG surface model against its specification.

The definitions below are a shallow embedding of `src/Surface.cpp`:
`double` becomes `ℝ`, `int` becomes `ℤ` (the id counter never overflows in
any scenario considered here), C++ state (the process-wide auto-id counter,
a Surface's two neighbor vectors, each Cell's adjacency record) is passed
explicitly, and the fatal `log_printf(ERROR, ...)` path becomes an
`Except.error` carrying the ids printed by the diagnostic.  Parts of the
repository that the claims need but whose bodies are not in the sources
(`Surface.h` inline members, `Cell::addNeighborCell`) are modelled from the
spec and marked as such in their doc comments.
-/

namespace OpenMOC

open Real Classical

/-- 3D point (the Point class: an x/y/z coordinate triple). -/
structure Point where
  x : ℝ
  y : ℝ
  z : ℝ

/-- The surfaceType enum tag (PLANE, XPLANE, ..., ZCYLINDER). -/
inductive surfaceType
  | PLANE
  | XPLANE
  | YPLANE
  | ZPLANE
  | ZCYLINDER
deriving DecidableEq

/-- One draw from the auto-id counter: `surf_id()` (Surface.cpp:16-20)
returns the current counter value and increments the counter.  The static
`auto_id` is threaded explicitly: the result is (returned id, new counter). -/
def surf_id (auto : ℤ) : ℤ × ℤ :=
  (auto, auto + 1)

/-- `reset_surf_id()` (Surface.cpp:26-28) sets the counter to 10000, which is
also the initial value of `auto_id` (Surface.cpp:5). -/
def reset_surf_id : ℤ := 10000

/-- Id assignment in `Surface::Surface` (Surface.cpp:41-46): an id argument of
0 draws from `surf_id`, a nonzero id is kept unchanged.  Returns the assigned
`_id` together with the counter state after construction. -/
def Surface.assignId (id : ℤ) (auto : ℤ) : ℤ × ℤ :=
  if id = 0 then surf_id auto else (id, auto)

/-- The ids produced by `n` consecutive auto-assignments (constructions with
id argument 0) starting from counter state `auto`. -/
def autoIds : ℕ → ℤ → List ℤ
  | 0, _ => []
  | n + 1, auto => (surf_id auto).1 :: autoIds n (surf_id auto).2

/-- The Plane class (and its XPlane/YPlane/ZPlane subclasses, discriminated by
`surface_type`): the Surface base data (`_id`, `_name`, `_surface_type`) and
the plane coefficients `_A,_B,_C,_D` of A*x + B*y + C*z + D = 0
(Surface.cpp:234-243).  The `_uid`/boundary-type members and the subclasses'
cached `_x`/`_y`/`_z` location members play no role in any claim and are
omitted. -/
structure Plane where
  id : ℤ
  name : String
  surface_type : surfaceType
  A : ℝ
  B : ℝ
  C : ℝ
  D : ℝ

/-- `Plane::Plane` (Surface.cpp:234-243) composed with `Surface::Surface`
(Surface.cpp:38-59): assigns the id (drawing from the counter when the id
argument is 0), copies the name (`setName`, Surface.cpp:129-141), and stores
the four coefficients.  Returns the object and the new counter state. -/
noncomputable def Plane.construct (A B C D : ℝ) (id : ℤ) (name : String)
    (auto : ℤ) : Plane × ℤ :=
  (⟨(Surface.assignId id auto).1, name, surfaceType.PLANE, A, B, C, D⟩,
    (Surface.assignId id auto).2)

/-- `XPlane::XPlane` (Surface.cpp:416-421): delegates to `Plane(1, 0, 0, -x,
id)`.  The name argument is NOT forwarded, so the base constructor receives
the default name.  Modelled from the spec: the default value of the optional
name parameter (declared in Surface.h, which is not among the sources) is the
empty string ("optional name" per spec section 3). -/
noncomputable def XPlane.construct (x : ℝ) (id : ℤ) (name : String)
    (auto : ℤ) : Plane × ℤ :=
  let p := Plane.construct 1 0 0 (-x) id "" auto
  ({ p.1 with surface_type := surfaceType.XPLANE }, p.2)

/-- `YPlane::YPlane` (Surface.cpp:498-503): delegates to `Plane(0, 1, 0, -y,
id)`, again omitting the name argument, so the base gets the default (empty)
name. -/
noncomputable def YPlane.construct (y : ℝ) (id : ℤ) (name : String)
    (auto : ℤ) : Plane × ℤ :=
  let p := Plane.construct 0 1 0 (-y) id "" auto
  ({ p.1 with surface_type := surfaceType.YPLANE }, p.2)

/-- `ZPlane::ZPlane` (Surface.cpp:578-583): delegates to `Plane(0, 0, 1, -z,
id, name)` — here the name IS forwarded. -/
noncomputable def ZPlane.construct (z : ℝ) (id : ℤ) (name : String)
    (auto : ℤ) : Plane × ℤ :=
  let p := Plane.construct 0 0 1 (-z) id name auto
  ({ p.1 with surface_type := surfaceType.ZPLANE }, p.2)

/-- The parallel-ray test of `Plane::intersection` (Surface.cpp:366-368): the
ray is treated as parallel (return 0, buffer untouched) when some direction
cosine is numerically zero while the matching plane coefficient is not.
The direction cosines are mx = sin(polar)cos(azim), my = sin(polar)sin(azim),
mz = cos(polar) (Surface.cpp:362-364). -/
def planeParallel (pl : Plane) (azim polar : ℝ) : Prop :=
  (|Real.sin polar * Real.cos azim| < 1e-10 ∧ 1e-10 < |pl.A|) ∨
  (|Real.sin polar * Real.sin azim| < 1e-10 ∧ 1e-10 < |pl.B|) ∨
  (|Real.cos polar| < 1e-10 ∧ 1e-10 < |pl.C|)

/-- The parametric distance `l` along the ray solved from the plane equation
(Surface.cpp:374-375). -/
noncomputable def planeL (pl : Plane) (pt : Point) (azim polar : ℝ) : ℝ :=
  -(pl.A * pt.x + pl.B * pt.y + pl.C * pt.z + pl.D) /
    (pl.A * (Real.sin polar * Real.cos azim) +
      pl.B * (Real.sin polar * Real.sin azim) + pl.C * Real.cos polar)

/-- The point written into `points[0]` by the non-degenerate branch of
`Plane::intersection` (Surface.cpp:376-378,383): the ray origin advanced by
the parametric distance `l` along the direction cosines. -/
noncomputable def planeHitPoint (pl : Plane) (pt : Point) (azim polar : ℝ) :
    Point :=
  ⟨pt.x + planeL pl pt azim polar * (Real.sin polar * Real.cos azim),
    pt.y + planeL pl pt azim polar * (Real.sin polar * Real.sin azim),
    pt.z + planeL pl pt azim polar * Real.cos polar⟩

/-- `Plane::intersection` (Surface.cpp:351-387).  Result: the returned count
and the final content of the caller's buffer slot `points[0]` (`none` means
the slot was not written).  In the parallel case the function returns 0
without touching the buffer; otherwise it always writes the computed point
into `points[0]` (Surface.cpp:383) and returns 1 exactly when `l > 0`
(Surface.cpp:380-381). -/
noncomputable def Plane.intersection (pl : Plane) (pt : Point)
    (azim polar : ℝ) : ℕ × Option Point :=
  if planeParallel pl azim polar then (0, none)
  else
    ((if 0 < planeL pl pt azim polar then 1 else 0),
      some (planeHitPoint pl pt azim polar))

/-- Modelled from the spec: `ON_SURFACE_THRESH` is "a fixed small tolerance"
(spec section 4.1); its value is defined in `Surface.h`, which is not among
the sources.  We use the value 1e-12 documented for OpenMOC; only its strict
positivity matters to the theorems below. -/
noncomputable def ON_SURFACE_THRESH : ℝ := 1e-12

/-- Modelled from the spec: `Plane::evaluate` computes the signed
implicit-function value A*x + B*y + C*z + D (the equation documented at
Surface.cpp:227-230; the inline body itself lives in the missing Surface.h). -/
noncomputable def Plane.evaluate (pl : Plane) (p : Point) : ℝ :=
  pl.A * p.x + pl.B * p.y + pl.C * p.z + pl.D

/-- `Surface::isPointOnSurface` (Surface.cpp:196-203): true iff
|evaluate(point)| < ON_SURFACE_THRESH, stated for the Plane variant. -/
def Plane.isPointOnSurface (pl : Plane) (p : Point) : Prop :=
  |pl.evaluate p| < ON_SURFACE_THRESH

/-- A point displaced by the signed distance `d` along the normal (A, B, C)
of a plane.  (For a unit normal, A² + B² + C² = 1, the displacement magnitude
is |d|.) -/
noncomputable def displaceAlongNormal (pl : Plane) (p : Point) (d : ℝ) :
    Point :=
  ⟨p.x + d * pl.A, p.y + d * pl.B, p.z + d * pl.C⟩

/-- The ZCylinder class: Surface base data plus the quadric coefficients
`_A,_B,_C,_D,_E` of A*x² + B*y² + C*x + D*y + E = 0, the radius and the
center coordinates (Surface.cpp:661-674). -/
structure ZCylinder where
  id : ℤ
  name : String
  A : ℝ
  B : ℝ
  C : ℝ
  D : ℝ
  E : ℝ
  radius : ℝ
  centerX : ℝ
  centerY : ℝ

/-- `ZCylinder::ZCylinder` (Surface.cpp:661-674) composed with
`Surface::Surface`: A = 1, B = 1, C = -2x, D = -2y, E = x² + y² - r². -/
noncomputable def ZCylinder.construct (x y radius : ℝ) (id : ℤ)
    (name : String) (auto : ℤ) : ZCylinder × ℤ :=
  (⟨(Surface.assignId id auto).1, name, 1, 1, -2 * x, -2 * y,
      x * x + y * y - radius * radius, radius, x, y⟩,
    (Surface.assignId id auto).2)

/-- The vertical-track test of `ZCylinder::intersection` (Surface.cpp:786):
the azimuthal angle is within 1e-10 of π/2 or of 3π/2. -/
def vertCond (azim : ℝ) : Prop :=
  |azim - π / 2| < 1e-10 ∨ |azim - 3 * (π / 2)| < 1e-10

/-- The z-coordinate the code assigns to a candidate intersection point
(Surface.cpp:806 and five analogous lines):
z0 + sqrt((ycurr-y0)² + (xcurr-x0)²) * tan(π/2 - polar). -/
noncomputable def zhit (x0 y0 z0 polar xcurr ycurr : ℝ) : ℝ :=
  z0 + Real.sqrt ((ycurr - y0) ^ 2 + (xcurr - x0) ^ 2) *
    Real.tan (π / 2 - polar)

/-- The directional filter applied to every candidate intersection point
(Surface.cpp:810-817 and the five analogous blocks): the candidate is counted
only if its y-offset matches the azimuthal half-plane and its z-offset matches
the polar angle (with an explicit tie-break branch at zcurr ≈ z0,
polar ≈ π/2).  Each block is an if/else-if chain whose branches all perform
the same `num++`, i.e. a disjunction. -/
def dirOk (azim polar y0 z0 ycurr zcurr : ℝ) : Prop :=
  (azim < π ∧ y0 < ycurr ∧
    ((z0 < zcurr ∧ polar < π / 2) ∨ (zcurr < z0 ∧ π / 2 < polar) ∨
      (|zcurr - z0| < 1e-10 ∧ |polar - π / 2| < 1e-10))) ∨
  (π < azim ∧ ycurr < y0 ∧
    ((z0 < zcurr ∧ polar < π / 2) ∨ (zcurr < z0 ∧ π / 2 < polar) ∨
      (|zcurr - z0| < 1e-10 ∧ |polar - π / 2| < 1e-10)))

/-- Candidate filter: the sub-buffer contributed by one candidate point.  In
the C++ code each candidate is written into `points[num]` and `num` is
incremented only when the directional check passes, so a rejected candidate is
overwritten by the next write and the final `points[0..num)` holds exactly the
accepted candidates in order. -/
noncomputable def keepIf (azim polar y0 z0 : ℝ) (p : Point) : List Point :=
  if dirOk azim polar y0 z0 p.y p.z then [p] else []

/-- Quadratic coefficient a of the vertical branch (Surface.cpp:792):
a = _B * _B. -/
noncomputable def ZCylinder.aV (cyl : ZCylinder) : ℝ := cyl.B * cyl.B

/-- Quadratic coefficient b of the vertical branch (Surface.cpp:793): b = _D. -/
noncomputable def ZCylinder.bV (cyl : ZCylinder) : ℝ := cyl.D

/-- Quadratic coefficient c of the vertical branch (Surface.cpp:794):
c = _A*x0² + _C*x0 + _E. -/
noncomputable def ZCylinder.cV (cyl : ZCylinder) (x0 : ℝ) : ℝ :=
  cyl.A * x0 * x0 + cyl.C * x0 + cyl.E

/-- Discriminant of the vertical branch (Surface.cpp:796). -/
noncomputable def ZCylinder.discrV (cyl : ZCylinder) (x0 : ℝ) : ℝ :=
  cyl.bV * cyl.bV - 4 * cyl.aV * cyl.cV x0

/-- The slope m = sin(azim)/cos(azim) of the non-vertical branch
(Surface.cpp:884). -/
noncomputable def slopeM (azim : ℝ) : ℝ := Real.sin azim / Real.cos azim

/-- The intercept q = y0 - m*x0 (Surface.cpp:885). -/
noncomputable def qNV (pt : Point) (azim : ℝ) : ℝ :=
  pt.y - slopeM azim * pt.x

/-- Quadratic coefficient a of the non-vertical branch (Surface.cpp:886):
a = _A + _B * _B * m * m. -/
noncomputable def ZCylinder.aNV (cyl : ZCylinder) (azim : ℝ) : ℝ :=
  cyl.A + cyl.B * cyl.B * slopeM azim * slopeM azim

/-- Quadratic coefficient b of the non-vertical branch (Surface.cpp:887):
b = 2*_B*m*q + _C + _D*m. -/
noncomputable def ZCylinder.bNV (cyl : ZCylinder) (pt : Point) (azim : ℝ) :
    ℝ :=
  2 * cyl.B * slopeM azim * qNV pt azim + cyl.C + cyl.D * slopeM azim

/-- Quadratic coefficient c of the non-vertical branch (Surface.cpp:888):
c = _B*q*q + _D*q + _E. -/
noncomputable def ZCylinder.cNV (cyl : ZCylinder) (pt : Point) (azim : ℝ) :
    ℝ :=
  cyl.B * qNV pt azim * qNV pt azim + cyl.D * qNV pt azim + cyl.E

/-- Discriminant of the non-vertical branch (Surface.cpp:890). -/
noncomputable def ZCylinder.discrNV (cyl : ZCylinder) (pt : Point)
    (azim : ℝ) : ℝ :=
  cyl.bNV pt azim * cyl.bNV pt azim - 4 * cyl.aNV azim * cyl.cNV pt azim

/-- Candidate point of the vertical branch at root ordinate `yr`
(Surface.cpp:804-806 / 830-832 / 851-853): x stays x0, z from `zhit`. -/
noncomputable def candV (pt : Point) (polar yr : ℝ) : Point :=
  ⟨pt.x, yr, zhit pt.x pt.y pt.z polar pt.x yr⟩

/-- Candidate point of the non-vertical branch at root abscissa `xr`
(Surface.cpp:924-926 / 945-947): y = y0 + m*(x - x0), z from `zhit`. -/
noncomputable def candNV (pt : Point) (azim polar xr : ℝ) : Point :=
  ⟨xr, pt.y + slopeM azim * (xr - pt.x),
    zhit pt.x pt.y pt.z polar xr (pt.y + slopeM azim * (xr - pt.x))⟩

/-- Vertical branch of `ZCylinder::intersection` (Surface.cpp:786-874).
Returns the count and the accepted points (= the final `points[0..num)`).
Note: in the `discr == 0` sub-branch the C++ control flow falls off the end
of the (non-void) function without a `return` statement; we model the value
of `num` the code has computed at that point. -/
noncomputable def ZCylinder.intersectV (cyl : ZCylinder) (pt : Point)
    (azim polar : ℝ) : ℕ × List Point :=
  if cyl.discrV pt.x < 0 then (0, [])
  else if cyl.discrV pt.x = 0 then
    ((keepIf azim polar pt.y pt.z
        (candV pt polar (-cyl.bV / (2 * cyl.aV)))).length,
      keepIf azim polar pt.y pt.z (candV pt polar (-cyl.bV / (2 * cyl.aV))))
  else
    ((keepIf azim polar pt.y pt.z
        (candV pt polar
          ((-cyl.bV + Real.sqrt (cyl.discrV pt.x)) / (2 * cyl.aV))) ++
      keepIf azim polar pt.y pt.z
        (candV pt polar
          ((-cyl.bV - Real.sqrt (cyl.discrV pt.x)) / (2 * cyl.aV)))).length,
      keepIf azim polar pt.y pt.z
        (candV pt polar
          ((-cyl.bV + Real.sqrt (cyl.discrV pt.x)) / (2 * cyl.aV))) ++
      keepIf azim polar pt.y pt.z
        (candV pt polar
          ((-cyl.bV - Real.sqrt (cyl.discrV pt.x)) / (2 * cyl.aV))))

/-- Non-vertical branch of `ZCylinder::intersection` (Surface.cpp:877-968).
`buf0` is the content of the caller's buffer slot `points[0]` on entry: in
the `discr == 0` sub-branch the code reads `points[num].getX()` (Surface.cpp:899)
BEFORE writing the slot, so the candidate's y-ordinate depends on the
incoming buffer content rather than on the computed root `xcurr`. -/
noncomputable def ZCylinder.intersectNV (cyl : ZCylinder) (pt : Point)
    (azim polar : ℝ) (buf0 : Point) : ℕ × List Point :=
  if cyl.discrNV pt azim < 0 then (0, [])
  else if cyl.discrNV pt azim = 0 then
    ((keepIf azim polar pt.y pt.z
        ⟨-cyl.bNV pt azim / (2 * cyl.aNV azim),
          pt.y + slopeM azim * (buf0.x - pt.x),
          zhit pt.x pt.y pt.z polar (-cyl.bNV pt azim / (2 * cyl.aNV azim))
            (pt.y + slopeM azim * (buf0.x - pt.x))⟩).length,
      keepIf azim polar pt.y pt.z
        ⟨-cyl.bNV pt azim / (2 * cyl.aNV azim),
          pt.y + slopeM azim * (buf0.x - pt.x),
          zhit pt.x pt.y pt.z polar (-cyl.bNV pt azim / (2 * cyl.aNV azim))
            (pt.y + slopeM azim * (buf0.x - pt.x))⟩)
  else
    ((keepIf azim polar pt.y pt.z
        (candNV pt azim polar
          ((-cyl.bNV pt azim + Real.sqrt (cyl.discrNV pt azim)) /
            (2 * cyl.aNV azim))) ++
      keepIf azim polar pt.y pt.z
        (candNV pt azim polar
          ((-cyl.bNV pt azim - Real.sqrt (cyl.discrNV pt azim)) /
            (2 * cyl.aNV azim)))).length,
      keepIf azim polar pt.y pt.z
        (candNV pt azim polar
          ((-cyl.bNV pt azim + Real.sqrt (cyl.discrNV pt azim)) /
            (2 * cyl.aNV azim))) ++
      keepIf azim polar pt.y pt.z
        (candNV pt azim polar
          ((-cyl.bNV pt azim - Real.sqrt (cyl.discrNV pt azim)) /
            (2 * cyl.aNV azim))))

/-- `ZCylinder::intersection` (Surface.cpp:776-969): dispatch on the
vertical-track test, then solve the quadratic of the matching branch. -/
noncomputable def ZCylinder.intersection (cyl : ZCylinder) (pt : Point)
    (azim polar : ℝ) (buf0 : Point) : ℕ × List Point :=
  if vertCond azim then cyl.intersectV pt azim polar
  else cyl.intersectNV pt azim polar buf0

/-- Each Cell's recorded adjacency, as a map from cell id to its neighbor
list.  Modelled from the spec: `Cell::addNeighborCell` is only declared in
the sources; per spec section 3 each Cell keeps a SET of neighbor Cells
("neighbor sets never contain duplicate Cell references"). -/
def CellNb : Type := ℕ → List ℕ

/-- Duplicate-free insertion: the `std::find` / `push_back` pattern of
`Surface::addNeighborCell` (Surface.cpp:169-170), and — modelled from the
spec — also the set-insert performed by `Cell::addNeighborCell`. -/
def addUnique (l : List ℕ) (c : ℕ) : List ℕ :=
  if c ∈ l then l else l ++ [c]

/-- One `(*iter1)->addNeighborCell(*iter2)` call (Surface.cpp:179,186):
records `b` in cell `a`'s adjacency set.  Modelled from the spec. -/
def cellAdd (m : CellNb) (a b : ℕ) : CellNb :=
  fun x => if x = a then addUnique (m a) b else m x

/-- The inner loop of the propagation (Surface.cpp:177-179): informs cell `a`
of every cell in `bs`. -/
def informAll (m : CellNb) (a : ℕ) (bs : List ℕ) : CellNb :=
  bs.foldl (fun m b => cellAdd m a b) m

/-- The outer loop of the propagation (Surface.cpp:175-180): informs every
cell of `as` of every cell of `bs`. -/
def informEach (m : CellNb) (as bs : List ℕ) : CellNb :=
  as.foldl (fun m a => informAll m a bs) m

/-- A Surface's two neighbor collections, keyed by halfspace
(`_neighbors[-1]`, `_neighbors[+1]`, Surface.cpp:56-58). -/
structure SurfaceNb where
  neg : List ℕ
  pos : List ℕ
deriving DecidableEq

/-- The full propagation step of `Surface::addNeighborCell`
(Surface.cpp:172-187): every -1-halfspace cell is informed of every
+1-halfspace cell (first double loop), then vice versa (second double loop). -/
def propagate (s : SurfaceNb) (m : CellNb) : CellNb :=
  informEach (informEach m s.neg s.pos) s.pos s.neg

/-- `Surface::addNeighborCell` (Surface.cpp:159-188).  `sid` is the Surface's
`_id`.  A halfspace other than -1/+1 hits the fatal
`log_printf(ERROR, "Unable to add neighbor Cell %d to Surface %d ...")`
(Surface.cpp:161-163), modelled as `Except.error` carrying the offending
(cell id, surface id) pair and producing no successor state.  Otherwise the
cell is inserted (duplicate-free) into the addressed halfspace collection and
the propagation runs over the updated collections. -/
def Surface.addNeighborCell (sid : ℤ) (s : SurfaceNb) (m : CellNb)
    (halfspace : ℤ) (cell : ℕ) : Except (ℕ × ℤ) (SurfaceNb × CellNb) :=
  if halfspace ≠ -1 ∧ halfspace ≠ 1 then Except.error (cell, sid)
  else
    let s' := if halfspace = -1 then { s with neg := addUnique s.neg cell }
      else { s with pos := addUnique s.pos cell }
    Except.ok (s', propagate s' m)

/-- Runs a sequence of `addNeighborCell` calls against one Surface, stopping
at the first fatal error (a fatal `log_printf(ERROR)` aborts construction). -/
def runCalls (sid : ℤ) : List (ℤ × ℕ) → SurfaceNb × CellNb →
    Except (ℕ × ℤ) (SurfaceNb × CellNb)
  | [], st => Except.ok st
  | (h, c) :: rest, (s, m) =>
    match Surface.addNeighborCell sid s m h c with
    | Except.error e => Except.error e
    | Except.ok st' => runCalls sid rest st'

/-- The empty cell-adjacency record (no Cell knows any neighbor yet). -/
def emptyCells : CellNb := fun _ => []

/-- Concrete three-cell scenario for the transitive-closure question: cells
A = 0 and B = 1 are registered on the two halfspaces of Surface 100, then
cells B = 1 and C = 2 on the two halfspaces of Surface 101, sharing one
cell-adjacency record throughout. -/
def c4scenario : Except (ℕ × ℤ) (SurfaceNb × CellNb) :=
  match runCalls 100 [(-1, 0), (1, 1)] (⟨[], []⟩, emptyCells) with
  | Except.error e => Except.error e
  | Except.ok (_, m) => runCalls 101 [(-1, 1), (1, 2)] (⟨[], []⟩, m)

/-- The cell-adjacency record at the end of the scenario. -/
def c4cells : CellNb :=
  match c4scenario with
  | Except.ok (_, m) => m
  | Except.error _ => emptyCells

/-- The Surface-101 neighbor collections at the end of the scenario. -/
def c4surf : SurfaceNb :=
  match c4scenario with
  | Except.ok (s, _) => s
  | Except.error _ => ⟨[], []⟩

/-- The Surface-100 neighbor collections after the first two calls of the
scenario. -/
def c4surf100 : SurfaceNb :=
  match runCalls 100 [(-1, 0), (1, 1)] (⟨[], []⟩, emptyCells) with
  | Except.ok (s, _) => s
  | Except.error _ => ⟨[], []⟩

/-- Test fixture: an XPlane at x = 1 (coefficients A = 1, B = 0, C = 0,
D = -1), built by the XPlane constructor with user id 7. -/
noncomputable def xp1 : Plane := (XPlane.construct 1 7 "" 10000).1

/-- Test fixture: an XPlane at x = 0 (coefficients A = 1, B = 0, C = 0,
D = -0), built by the XPlane constructor with user id 8. -/
noncomputable def xp0 : Plane := (XPlane.construct 0 8 "" 10000).1

/-- Test fixture: the unit ZCylinder centered at the origin, built by the
ZCylinder constructor with user id 9. -/
noncomputable def unitCyl : ZCylinder := (ZCylinder.construct 0 0 1 9 "" 10000).1

/-! ## Theorems -/

/-- The ray along +x from the origin of coordinates is not parallel to the
x = 1 plane for the parallel test of `Plane::intersection`. -/
theorem not_parallel_xp1 : ¬ planeParallel xp1 0 (π / 2) := by
  simp only [planeParallel, xp1, XPlane.construct, Plane.construct,
    Surface.assignId, Real.sin_pi_div_two, Real.cos_pi_div_two,
    Real.sin_zero, Real.cos_zero]
  norm_num

/-- The parametric distance from origin (2, 0, 0) toward +x to the x = 1
plane is -1 (the hit lies behind the origin). -/
theorem planeL_xp1_behind : planeL xp1 ⟨2, 0, 0⟩ 0 (π / 2) = -1 := by
  simp only [planeL, xp1, XPlane.construct, Plane.construct,
    Surface.assignId, Real.sin_pi_div_two, Real.cos_pi_div_two,
    Real.sin_zero, Real.cos_zero]
  norm_num

/-- C3: in the non-degenerate (non-parallel) branch, `Plane::intersection`
counts the intersection exactly when the parametric distance
l = -(A x0 + B y0 + C z0 + D)/(A mx + B my + C mz) is strictly positive, and
returns 0 when l ≤ 0. -/
theorem plane_intersection_ahead (pl : Plane) (pt : Point) (azim polar : ℝ)
    (h : ¬ planeParallel pl azim polar) :
    ((pl.intersection pt azim polar).1 = 1 ↔ 0 < planeL pl pt azim polar) ∧
    ((pl.intersection pt azim polar).1 = 0 ↔ planeL pl pt azim polar ≤ 0) := by
  unfold Plane.intersection
  rw [if_neg h]
  by_cases hl : 0 < planeL pl pt azim polar
  · constructor <;> simp [hl, not_le.mpr hl]
  · have hl' : planeL pl pt azim polar ≤ 0 := not_lt.mp hl
    constructor <;> simp [hl, hl']

/-- Witness for C3: from origin (0,0,0) toward +x, the x = 1 plane is hit
ahead (l = 1 > 0), so the count is 1. -/
theorem plane_intersection_ahead_witness :
    (xp1.intersection ⟨0, 0, 0⟩ 0 (π / 2)).1 = 1 := by
  have hl : planeL xp1 ⟨0, 0, 0⟩ 0 (π / 2) = 1 := by
    simp only [planeL, xp1, XPlane.construct, Plane.construct,
      Surface.assignId, Real.sin_pi_div_two, Real.cos_pi_div_two,
      Real.sin_zero, Real.cos_zero]
    norm_num
  exact (plane_intersection_ahead xp1 ⟨0, 0, 0⟩ 0 (π / 2)
    not_parallel_xp1).1.mpr (by rw [hl]; norm_num)

/-- Counterexample to C2 as stated: the ray from (2, 0, 0) toward +x is NOT
parallel to the x = 1 plane, yet `Plane::intersection` returns 0 (the hit is
behind the origin), so "returns exactly 1 when the ray is not parallel" is
false. -/
theorem plane_intersection_c2_counterexample :
    ¬ planeParallel xp1 0 (π / 2) ∧
    (xp1.intersection ⟨2, 0, 0⟩ 0 (π / 2)).1 = 0 := by
  refine ⟨not_parallel_xp1, ?_⟩
  unfold Plane.intersection
  rw [if_neg not_parallel_xp1]
  rw [if_neg (by rw [planeL_xp1_behind]; norm_num)]

/-- C2 (amended): `Plane::intersection` returns at most one point; it returns
0 whenever the ray is parallel (per the numerical degeneracy test), and in the
non-parallel case it returns 1 exactly when the parametric distance is
positive (hence 0, not 1, for a non-parallel ray whose hit is at or behind
the origin). -/
theorem plane_intersection_count_bound (pl : Plane) (pt : Point)
    (azim polar : ℝ) :
    (pl.intersection pt azim polar).1 ≤ 1 ∧
    (planeParallel pl azim polar → (pl.intersection pt azim polar).1 = 0) ∧
    (¬ planeParallel pl azim polar →
      ((pl.intersection pt azim polar).1 = 1 ↔
        0 < planeL pl pt azim polar)) := by
  unfold Plane.intersection
  by_cases h : planeParallel pl azim polar
  · simp [h]
  · rw [if_neg h]
    by_cases hl : 0 < planeL pl pt azim polar
    · simp [h, hl]
    · simp [h, hl]

/-- Witness for the amended C2: a ray along +y is parallel to the x = 1
plane (mx is numerically zero while A = 1 is not), and the count is 0. -/
theorem plane_intersection_count_bound_witness :
    (xp1.intersection ⟨0, 0, 0⟩ (π / 2) (π / 2)).1 = 0 := by
  apply (plane_intersection_count_bound xp1 ⟨0, 0, 0⟩ (π / 2) (π / 2)).2.1
  simp only [planeParallel, xp1, XPlane.construct, Plane.construct,
    Surface.assignId, Real.sin_pi_div_two, Real.cos_pi_div_two]
  norm_num

/-- C10: in the non-degenerate branch, `Plane::intersection` always writes
the computed intersection coordinates into the caller's buffer slot
`points[0]`, whatever the returned count. -/
theorem plane_intersection_writes_buffer (pl : Plane) (pt : Point)
    (azim polar : ℝ) (h : ¬ planeParallel pl azim polar) :
    (pl.intersection pt azim polar).2 =
      some (planeHitPoint pl pt azim polar) := by
  unfold Plane.intersection
  rw [if_neg h]

/-- Witness for C10: from (2, 0, 0) toward +x against the x = 1 plane the
return value is 0 (hit behind the origin) and the buffer slot is written
nonetheless. -/
theorem plane_intersection_writes_buffer_witness :
    (xp1.intersection ⟨2, 0, 0⟩ 0 (π / 2)).1 = 0 ∧
    (xp1.intersection ⟨2, 0, 0⟩ 0 (π / 2)).2 =
      some (planeHitPoint xp1 ⟨2, 0, 0⟩ 0 (π / 2)) := by
  constructor
  · unfold Plane.intersection
    rw [if_neg not_parallel_xp1]
    rw [if_neg (by rw [planeL_xp1_behind]; norm_num)]
  · exact plane_intersection_writes_buffer xp1 ⟨2, 0, 0⟩ 0 (π / 2)
      not_parallel_xp1

/-- C6: calling `Surface::addNeighborCell` with a halfspace other than -1 or
+1 is a fatal error identifying the offending Cell and Surface ids, and no
successor state is produced (the neighbor collections are not modified). -/
theorem addNeighborCell_invalid_halfspace (sid halfspace : ℤ)
    (s : SurfaceNb) (m : CellNb) (cell : ℕ)
    (h : halfspace ≠ -1 ∧ halfspace ≠ 1) :
    Surface.addNeighborCell sid s m halfspace cell =
      Except.error (cell, sid) := by
  unfold Surface.addNeighborCell
  rw [if_pos h]

/-- Witness for C6: halfspace 2 on Surface 3 with Cell 5 errors out with the
pair (5, 3). -/
theorem addNeighborCell_invalid_halfspace_witness :
    Surface.addNeighborCell 3 ⟨[], []⟩ emptyCells 2 5 =
      Except.error (5, 3) :=
  addNeighborCell_invalid_halfspace 3 2 ⟨[], []⟩ emptyCells 5 (by decide)

/-- Auto-ids from counter state `a` are a + 0, a + 1, ... -/
theorem autoIds_eq (n : ℕ) (a : ℤ) :
    autoIds n a = (List.range n).map (fun k : ℕ => a + (k : ℤ)) := by
  induction n generalizing a with
  | zero => rfl
  | succ n ih =>
    rw [List.range_succ_eq_map, List.map_cons, List.map_map]
    show (surf_id a).1 :: autoIds n (surf_id a).2 = _
    rw [show (surf_id a).1 = a from rfl, show (surf_id a).2 = a + 1 from rfl,
      ih]
    congr 1
    · norm_num
    · apply List.map_congr_left
      intro k _
      simp only [Function.comp_apply]
      push_cast
      ring

/-- C7: after a reset, N consecutive auto-assigned Surface ids are exactly
10000, 10001, ..., strictly increasing with no duplicates; a Surface
constructed with a nonzero id keeps that id (and leaves the counter alone),
while id 0 draws from the counter. -/
theorem surf_id_allocation (n : ℕ) (id auto : ℤ) (hid : id ≠ 0) :
    autoIds n reset_surf_id =
      (List.range n).map (fun k : ℕ => 10000 + (k : ℤ)) ∧
    (autoIds n reset_surf_id).Pairwise (· < ·) ∧
    (autoIds n reset_surf_id).Nodup ∧
    (∀ a : ℤ, Surface.assignId 0 a = surf_id a) ∧
    Surface.assignId id auto = (id, auto) := by
  have heq := autoIds_eq n reset_surf_id
  have hpair : (autoIds n reset_surf_id).Pairwise (· < ·) := by
    rw [heq]
    refine List.pairwise_map.mpr ?_
    refine (List.pairwise_lt_range n).imp ?_
    intro a b hab
    have h : (a : ℤ) < (b : ℤ) := by exact_mod_cast hab
    linarith
  refine ⟨heq, hpair, hpair.imp ne_of_lt, fun a => rfl, ?_⟩
  unfold Surface.assignId
  rw [if_neg hid]

/-- Witness for C7: three draws after a reset give 10000, 10001, 10002, and
a Surface constructed with the nonzero id 7 keeps it. -/
theorem surf_id_allocation_witness :
    autoIds 3 reset_surf_id = [10000, 10001, 10002] ∧
    Surface.assignId 7 20000 = (7, 20000) := by
  obtain ⟨h1, -, -, -, h5⟩ := surf_id_allocation 3 7 20000 (by decide)
  exact ⟨by rw [h1]; decide, h5⟩

/-- C9: the XPlane and YPlane constructors do not forward the name argument
to the Plane base constructor (the stored name is the default, empty, name),
while the ZPlane constructor forwards it, so a named ZPlane keeps its name. -/
theorem xplane_yplane_drop_name (x y z : ℝ) (id : ℤ) (name : String)
    (auto : ℤ) :
    (XPlane.construct x id name auto).1.name = "" ∧
    (YPlane.construct y id name auto).1.name = "" ∧
    (ZPlane.construct z id name auto).1.name = name :=
  ⟨rfl, rfl, rfl⟩

/-- Inserting an element already present leaves the list unchanged. -/
theorem addUnique_of_mem {l : List ℕ} {c : ℕ} (h : c ∈ l) :
    addUnique l c = l := by
  unfold addUnique
  rw [if_pos h]

/-- `addUnique` preserves duplicate-freedom. -/
theorem addUnique_nodup {l : List ℕ} (c : ℕ) (h : l.Nodup) :
    (addUnique l c).Nodup := by
  unfold addUnique
  split_ifs with hc
  · exact h
  · simp [List.nodup_append, h, hc]

/-- The inserted element is a member of the result. -/
theorem mem_addUnique_self (l : List ℕ) (c : ℕ) : c ∈ addUnique l c := by
  unfold addUnique
  split_ifs with h
  · exact h
  · simp

/-- Existing members survive `addUnique`. -/
theorem mem_addUnique_of_mem {l : List ℕ} {x : ℕ} (c : ℕ) (h : x ∈ l) :
    x ∈ addUnique l c := by
  unfold addUnique
  split_ifs with hc
  · exact h
  · exact List.mem_append_left _ h

/-- A recorded adjacency survives a `cellAdd`. -/
theorem cellAdd_mono {m : CellNb} {x y : ℕ} (a b : ℕ) (h : y ∈ m x) :
    y ∈ cellAdd m a b x := by
  unfold cellAdd
  split_ifs with hx
  · subst hx
    exact mem_addUnique_of_mem _ h
  · exact h

/-- `cellAdd m a b` records `b` in cell `a`'s adjacency. -/
theorem cellAdd_self (m : CellNb) (a b : ℕ) : b ∈ cellAdd m a b a := by
  unfold cellAdd
  rw [if_pos rfl]
  exact mem_addUnique_self _ _

/-- A recorded adjacency survives `informAll`. -/
theorem informAll_mono {m : CellNb} {x y : ℕ} (a : ℕ) (bs : List ℕ)
    (h : y ∈ m x) : y ∈ informAll m a bs x := by
  induction bs generalizing m with
  | nil => exact h
  | cons b bs ih => exact ih (cellAdd_mono a b h)

/-- After `informAll m a bs`, cell `a` knows every element of `bs`. -/
theorem informAll_mem {m : CellNb} (a : ℕ) {b : ℕ} {bs : List ℕ}
    (h : b ∈ bs) : b ∈ informAll m a bs a := by
  induction bs generalizing m with
  | nil => cases h
  | cons b' bs ih =>
    rcases List.mem_cons.mp h with rfl | h'
    · exact informAll_mono a bs (cellAdd_self m a b)
    · exact ih h'

/-- A recorded adjacency survives `informEach`. -/
theorem informEach_mono {m : CellNb} {x y : ℕ} (as bs : List ℕ)
    (h : y ∈ m x) : y ∈ informEach m as bs x := by
  induction as generalizing m with
  | nil => exact h
  | cons a as ih => exact ih (informAll_mono a bs h)

/-- After `informEach m as bs`, every cell of `as` knows every cell of
`bs`. -/
theorem informEach_mem {m : CellNb} {a b : ℕ} {as bs : List ℕ}
    (ha : a ∈ as) (hb : b ∈ bs) : b ∈ informEach m as bs a := by
  induction as generalizing m with
  | nil => cases ha
  | cons a' as ih =>
    rcases List.mem_cons.mp ha with rfl | ha'
    · exact informEach_mono as bs (informAll_mem a hb)
    · exact ih ha'

/-- A recorded adjacency survives the full propagation step. -/
theorem propagate_mono {m : CellNb} {x y : ℕ} (s : SurfaceNb)
    (h : y ∈ m x) : y ∈ propagate s m x :=
  informEach_mono _ _ (informEach_mono _ _ h)

/-- After propagation, every -1 cell knows every +1 cell. -/
theorem propagate_mem_of_neg {s : SurfaceNb} {m : CellNb} {a b : ℕ}
    (ha : a ∈ s.neg) (hb : b ∈ s.pos) : b ∈ propagate s m a :=
  informEach_mono _ _ (informEach_mem ha hb)

/-- After propagation, every +1 cell knows every -1 cell. -/
theorem propagate_mem_of_pos {s : SurfaceNb} {m : CellNb} {a b : ℕ}
    (ha : a ∈ s.neg) (hb : b ∈ s.pos) : a ∈ propagate s m b :=
  informEach_mem hb ha

/-- A valid `addNeighborCell` call on the -1 halfspace, spelled out. -/
theorem addNeighborCell_neg_eq (sid : ℤ) (s : SurfaceNb) (m : CellNb)
    (cell : ℕ) :
    Surface.addNeighborCell sid s m (-1) cell =
      Except.ok ({ s with neg := addUnique s.neg cell },
        propagate { s with neg := addUnique s.neg cell } m) := rfl

/-- A valid `addNeighborCell` call on the +1 halfspace, spelled out. -/
theorem addNeighborCell_pos_eq (sid : ℤ) (s : SurfaceNb) (m : CellNb)
    (cell : ℕ) :
    Surface.addNeighborCell sid s m 1 cell =
      Except.ok ({ s with pos := addUnique s.pos cell },
        propagate { s with pos := addUnique s.pos cell } m) := rfl

/-- Any successful `addNeighborCell` call produces the propagation of the
updated collections. -/
theorem addNeighborCell_ok_inv {sid : ℤ} {s : SurfaceNb} {m : CellNb}
    {halfspace : ℤ} {cell : ℕ} {s' : SurfaceNb} {m' : CellNb}
    (hok : Surface.addNeighborCell sid s m halfspace cell =
      Except.ok (s', m')) :
    m' = propagate s' m ∧
      (s'.neg = addUnique s.neg cell ∧ s'.pos = s.pos ∨
        s'.neg = s.neg ∧ s'.pos = addUnique s.pos cell) := by
  unfold Surface.addNeighborCell at hok
  split_ifs at hok with h1 h2
  · simp only [Except.ok.injEq, Prod.mk.injEq] at hok
    obtain ⟨rfl, rfl⟩ := hok
    exact ⟨rfl, Or.inl ⟨rfl, rfl⟩⟩
  · simp only [Except.ok.injEq, Prod.mk.injEq] at hok
    obtain ⟨rfl, rfl⟩ := hok
    exact ⟨rfl, Or.inr ⟨rfl, rfl⟩⟩

/-- C5: over any sequence of valid `addNeighborCell` calls the two neighbor
collections of a Surface stay duplicate-free, and re-adding a Cell already
present on the addressed halfspace leaves the Surface's collections exactly
as they were (idempotence on the Surface state). -/
theorem addNeighborCell_nodup_idem (sid : ℤ) :
    (∀ (calls : List (ℤ × ℕ)) (s : SurfaceNb) (m : CellNb)
        (res : SurfaceNb × CellNb),
      (∀ p ∈ calls, p.1 = -1 ∨ p.1 = 1) → s.neg.Nodup → s.pos.Nodup →
      runCalls sid calls (s, m) = Except.ok res →
      res.1.neg.Nodup ∧ res.1.pos.Nodup) ∧
    (∀ (s : SurfaceNb) (m : CellNb) (cell : ℕ), cell ∈ s.neg →
      Surface.addNeighborCell sid s m (-1) cell =
        Except.ok (s, propagate s m)) ∧
    (∀ (s : SurfaceNb) (m : CellNb) (cell : ℕ), cell ∈ s.pos →
      Surface.addNeighborCell sid s m 1 cell =
        Except.ok (s, propagate s m)) := by
  refine ⟨?_, ?_, ?_⟩
  · intro calls
    induction calls with
    | nil =>
      intro s m res _ hn hp hrun
      cases hrun
      exact ⟨hn, hp⟩
    | cons hd tl ih =>
      obtain ⟨h, c⟩ := hd
      intro s m res hvalid hn hp hrun
      have hmem := hvalid (h, c) (List.mem_cons_self _ _)
      have htl : ∀ p ∈ tl, p.1 = -1 ∨ p.1 = 1 :=
        fun p hp' => hvalid p (List.mem_cons_of_mem _ hp')
      rcases hmem with hh | hh
      all_goals simp only at hh
      · subst hh
        rw [show runCalls sid (((-1 : ℤ), c) :: tl) (s, m) =
            runCalls sid tl ({ s with neg := addUnique s.neg c },
              propagate { s with neg := addUnique s.neg c } m) from rfl]
          at hrun
        exact ih { s with neg := addUnique s.neg c } _ res htl
          (addUnique_nodup c hn) hp hrun
      · subst hh
        rw [show runCalls sid (((1 : ℤ), c) :: tl) (s, m) =
            runCalls sid tl ({ s with pos := addUnique s.pos c },
              propagate { s with pos := addUnique s.pos c } m) from rfl]
          at hrun
        exact ih { s with pos := addUnique s.pos c } _ res htl hn
          (addUnique_nodup c hp) hrun
  · intro s m cell hmem
    rw [addNeighborCell_neg_eq, addUnique_of_mem hmem]
  · intro s m cell hmem
    rw [addNeighborCell_pos_eq, addUnique_of_mem hmem]

/-- Witness for C5: re-adding Cell 5, already on the -1 halfspace of a
Surface whose collections are ([5], [7]), leaves both collections unchanged. -/
theorem addNeighborCell_nodup_idem_witness :
    Surface.addNeighborCell 9 ⟨[5], [7]⟩ emptyCells (-1) 5 =
      Except.ok (⟨[5], [7]⟩, propagate ⟨[5], [7]⟩ emptyCells) :=
  (addNeighborCell_nodup_idem 9).2.1 ⟨[5], [7]⟩ emptyCells 5 (by decide)

/-- Counterexample to C4's transitive-closure half: with cells A = 0, B = 1
paired across Surface 100 and cells B = 1, C = 2 paired across Surface 101,
after adding C the adjacency recorded for A is exactly [B]: C is a neighbor
of B and B of A, but C is NOT in A's adjacency, so the neighbor relation is
not transitively closed. -/
theorem addNeighborCell_transitive_counterexample :
    c4surf100 = ⟨[0], [1]⟩ ∧
    c4surf = ⟨[1], [2]⟩ ∧
    c4cells 0 = [1] ∧
    (2 : ℕ) ∈ c4cells 1 ∧
    (2 : ℕ) ∉ c4cells 0 := by
  refine ⟨by decide, by decide, by decide, by decide, by decide⟩

/-- C4 (amended): after every successful `addNeighborCell` call, every Cell
on the -1 halfspace has been informed of every Cell on the +1 halfspace and
vice versa; moreover recorded adjacencies persist through later calls.
Cross-surface transitive closure does NOT hold: a Cell C added across a
second Surface becomes discoverable from A only through the two-hop chain
A → B → C. -/
theorem addNeighborCell_informs_across (sid : ℤ) (s : SurfaceNb)
    (m : CellNb) (halfspace : ℤ) (cell : ℕ) (s' : SurfaceNb) (m' : CellNb)
    (hok : Surface.addNeighborCell sid s m halfspace cell =
      Except.ok (s', m')) :
    (∀ a ∈ s'.neg, ∀ b ∈ s'.pos, b ∈ m' a ∧ a ∈ m' b) ∧
    (∀ (sid₂ : ℤ) (s₂ : SurfaceNb) (halfspace₂ : ℤ) (cell₂ : ℕ)
        (s₂' : SurfaceNb) (m₂' : CellNb),
      Surface.addNeighborCell sid₂ s₂ m' halfspace₂ cell₂ =
        Except.ok (s₂', m₂') →
      ∀ a b : ℕ, b ∈ m' a → b ∈ m₂' a) := by
  obtain ⟨rfl, -⟩ := addNeighborCell_ok_inv hok
  constructor
  · intro a ha b hb
    exact ⟨propagate_mem_of_neg ha hb, propagate_mem_of_pos ha hb⟩
  · intro sid₂ s₂ halfspace₂ cell₂ s₂' m₂' hok₂ a b hab
    obtain ⟨rfl, -⟩ := addNeighborCell_ok_inv hok₂
    exact propagate_mono _ hab

/-- Witness for the amended C4: registering Cell 1 on the +1 halfspace of a
Surface already holding Cell 0 on the -1 halfspace makes 0 and 1 mutual
neighbors in the cell adjacency record. -/
theorem addNeighborCell_informs_across_witness :
    (1 : ℕ) ∈ propagate ⟨[0], [1]⟩ emptyCells 0 ∧
    (0 : ℕ) ∈ propagate ⟨[0], [1]⟩ emptyCells 1 :=
  (addNeighborCell_informs_across 100 ⟨[0], []⟩ emptyCells 1 1 ⟨[0], [1]⟩
      (propagate ⟨[0], [1]⟩ emptyCells) rfl).1 0 (by decide) 1 (by decide)

/-- Counterexample to C8 as stated: on the XPlane at x = 0, the point with
x = 0.9·ON_SURFACE_THRESH is classified on-surface, but displacing it by
0.9·ON_SURFACE_THRESH (a displacement of magnitude strictly below the
threshold) along the unit normal moves it to x = 1.8·ON_SURFACE_THRESH,
which is classified off-surface: sub-threshold displacement along the normal
CAN change `isPointOnSurface`. -/
theorem isPointOnSurface_not_displacement_stable :
    |(9 / 10 : ℝ) * ON_SURFACE_THRESH| < ON_SURFACE_THRESH ∧
    xp0.isPointOnSurface ⟨(9 / 10) * ON_SURFACE_THRESH, 0, 0⟩ ∧
    ¬ xp0.isPointOnSurface
        (displaceAlongNormal xp0 ⟨(9 / 10) * ON_SURFACE_THRESH, 0, 0⟩
          ((9 / 10) * ON_SURFACE_THRESH)) := by
  have hT : ON_SURFACE_THRESH = 1e-12 := rfl
  refine ⟨?_, ?_, ?_⟩
  · rw [abs_of_nonneg (by rw [hT]; norm_num)]
    rw [hT]
    norm_num
  · simp only [Plane.isPointOnSurface, Plane.evaluate, xp0,
      XPlane.construct, Plane.construct, Surface.assignId, hT]
    rw [abs_of_nonneg (by norm_num)]
    norm_num
  · simp only [Plane.isPointOnSurface, Plane.evaluate, displaceAlongNormal,
      xp0, XPlane.construct, Plane.construct, Surface.assignId, hT]
    rw [abs_of_nonneg (by norm_num)]
    norm_num

/-- C8 (amended): for a plane with unit normal, a point lying exactly on the
surface (evaluate = 0) remains classified on-surface after any displacement
of magnitude < ON_SURFACE_THRESH along the normal.  (For points merely
within the tolerance band the classification can change, as the
counterexample shows.) -/
theorem isPointOnSurface_displacement (pl : Plane) (p : Point) (d : ℝ)
    (hunit : pl.A ^ 2 + pl.B ^ 2 + pl.C ^ 2 = 1) (h0 : pl.evaluate p = 0)
    (hd : |d| < ON_SURFACE_THRESH) :
    pl.isPointOnSurface p ∧
    pl.isPointOnSurface (displaceAlongNormal pl p d) := by
  have hT : (0 : ℝ) < ON_SURFACE_THRESH := by
    rw [show ON_SURFACE_THRESH = 1e-12 from rfl]
    norm_num
  have heval : pl.evaluate (displaceAlongNormal pl p d) = d := by
    simp only [Plane.evaluate, displaceAlongNormal] at h0 ⊢
    linear_combination h0 + d * hunit
  constructor
  · simp only [Plane.isPointOnSurface, h0, abs_zero]
    exact hT
  · simp only [Plane.isPointOnSurface, heval]
    exact hd

/-- Witness for the amended C8: the origin lies exactly on the x = 0 plane
and stays on-surface when displaced by half the threshold along the normal. -/
theorem isPointOnSurface_displacement_witness :
    xp0.isPointOnSurface ⟨0, 0, 0⟩ ∧
    xp0.isPointOnSurface
      (displaceAlongNormal xp0 ⟨0, 0, 0⟩ (ON_SURFACE_THRESH / 2)) := by
  apply isPointOnSurface_displacement
  · norm_num [xp0, XPlane.construct, Plane.construct, Surface.assignId]
  · norm_num [Plane.evaluate, xp0, XPlane.construct, Plane.construct,
      Surface.assignId]
  · rw [show ON_SURFACE_THRESH = 1e-12 from rfl]
    rw [abs_of_nonneg (by norm_num)]
    norm_num

/-- The azimuthal angle 0 is not within 1e-10 of π/2 or 3π/2. -/
theorem not_vertCond_zero : ¬ vertCond 0 := by
  unfold vertCond
  push_neg
  have h := Real.pi_gt_three
  constructor
  · rw [zero_sub, abs_neg, abs_of_nonneg (by linarith)]
    norm_num
    linarith
  · rw [zero_sub, abs_neg, abs_of_nonneg (by linarith)]
    norm_num
    linarith

/-- The directional filter always rejects a candidate whose y-ordinate
equals the ray origin's (both strict comparisons fail). -/
theorem not_dirOk_self (azim polar y0 z0 zc : ℝ) :
    ¬ dirOk azim polar y0 z0 y0 zc := by
  intro h
  unfold dirOk at h
  rcases h with ⟨-, h, -⟩ | ⟨-, h, -⟩ <;> exact lt_irrefl _ h

/-- A candidate contributes at most one point. -/
theorem keepIf_length_le (azim polar y0 z0 : ℝ) (p : Point) :
    (keepIf azim polar y0 z0 p).length ≤ 1 := by
  unfold keepIf
  split_ifs <;> simp

/-- Whatever `keepIf` returns is the candidate itself. -/
theorem mem_keepIf {azim polar y0 z0 : ℝ} {p q : Point}
    (h : q ∈ keepIf azim polar y0 z0 p) : q = p := by
  unfold keepIf at h
  split_ifs at h
  · simpa using h
  · simp at h

/-- A rejected candidate contributes nothing. -/
theorem keepIf_eq_nil {azim polar y0 z0 : ℝ} {p : Point}
    (h : ¬ dirOk azim polar y0 z0 p.y p.z) :
    keepIf azim polar y0 z0 p = [] := by
  unfold keepIf
  rw [if_neg h]

/-- Both quadratic-formula values are roots of the quadratic. -/
theorem quad_root_zero (a b c s xr : ℝ) (ha : a ≠ 0)
    (hs : s ^ 2 = b * b - 4 * a * c)
    (hx : xr = (-b + s) / (2 * a) ∨ xr = (-b - s) / (2 * a)) :
    a * xr ^ 2 + b * xr + c = 0 := by
  have h2a : (2 : ℝ) * a ≠ 0 := by
    intro h
    rcases mul_eq_zero.mp h with h' | h'
    · norm_num at h'
    · exact ha h'
  have h4a : (4 : ℝ) * a ≠ 0 := by
    intro h
    rcases mul_eq_zero.mp h with h' | h'
    · norm_num at h'
    · exact ha h'
  have h1 : (2 * a * xr + b) ^ 2 = s ^ 2 := by
    rcases hx with rfl | rfl
    · rw [mul_div_assoc', mul_div_cancel_left₀ _ h2a]
      ring
    · rw [mul_div_assoc', mul_div_cancel_left₀ _ h2a]
      ring
  have h2 : 4 * a * (a * xr ^ 2 + b * xr + c) = 0 := by
    linear_combination h1 + hs
  exact mul_left_cancel₀ h4a (by rw [mul_zero]; exact h2)

/-- Vertical branch, negative discriminant: no intersections
(Surface.cpp:799-800). -/
theorem intersectV_neg {cyl : ZCylinder} {pt : Point} (azim polar : ℝ)
    (hd : cyl.discrV pt.x < 0) :
    cyl.intersectV pt azim polar = (0, []) := by
  unfold ZCylinder.intersectV
  rw [if_pos hd]

/-- Vertical branch, zero discriminant: the single tangent candidate,
filtered (Surface.cpp:803-826). -/
theorem intersectV_zero {cyl : ZCylinder} {pt : Point} (azim polar : ℝ)
    (hd : cyl.discrV pt.x = 0) :
    cyl.intersectV pt azim polar =
      ((keepIf azim polar pt.y pt.z
          (candV pt polar (-cyl.bV / (2 * cyl.aV)))).length,
        keepIf azim polar pt.y pt.z
          (candV pt polar (-cyl.bV / (2 * cyl.aV)))) := by
  unfold ZCylinder.intersectV
  rw [if_neg (by rw [hd]; norm_num), if_pos hd]

/-- Vertical branch, positive discriminant: two candidates, each filtered
(Surface.cpp:829-873). -/
theorem intersectV_pos {cyl : ZCylinder} {pt : Point} (azim polar : ℝ)
    (hd : 0 < cyl.discrV pt.x) :
    cyl.intersectV pt azim polar =
      ((keepIf azim polar pt.y pt.z
          (candV pt polar
            ((-cyl.bV + Real.sqrt (cyl.discrV pt.x)) / (2 * cyl.aV))) ++
        keepIf azim polar pt.y pt.z
          (candV pt polar
            ((-cyl.bV - Real.sqrt (cyl.discrV pt.x)) / (2 * cyl.aV)))).length,
        keepIf azim polar pt.y pt.z
          (candV pt polar
            ((-cyl.bV + Real.sqrt (cyl.discrV pt.x)) / (2 * cyl.aV))) ++
        keepIf azim polar pt.y pt.z
          (candV pt polar
            ((-cyl.bV - Real.sqrt (cyl.discrV pt.x)) / (2 * cyl.aV)))) := by
  unfold ZCylinder.intersectV
  rw [if_neg (by linarith), if_neg (by linarith [ne_of_gt hd])]

/-- Non-vertical branch, negative discriminant: no intersections
(Surface.cpp:893-894). -/
theorem intersectNV_neg {cyl : ZCylinder} {pt : Point} {azim : ℝ}
    (polar : ℝ) (buf0 : Point) (hd : cyl.discrNV pt azim < 0) :
    cyl.intersectNV pt azim polar buf0 = (0, []) := by
  unfold ZCylinder.intersectNV
  rw [if_pos hd]

/-- Non-vertical branch, zero discriminant: the single (buffer-dependent)
candidate, filtered (Surface.cpp:897-920). -/
theorem intersectNV_zero {cyl : ZCylinder} {pt : Point} {azim : ℝ}
    (polar : ℝ) (buf0 : Point) (hd : cyl.discrNV pt azim = 0) :
    cyl.intersectNV pt azim polar buf0 =
      ((keepIf azim polar pt.y pt.z
          ⟨-cyl.bNV pt azim / (2 * cyl.aNV azim),
            pt.y + slopeM azim * (buf0.x - pt.x),
            zhit pt.x pt.y pt.z polar
              (-cyl.bNV pt azim / (2 * cyl.aNV azim))
              (pt.y + slopeM azim * (buf0.x - pt.x))⟩).length,
        keepIf azim polar pt.y pt.z
          ⟨-cyl.bNV pt azim / (2 * cyl.aNV azim),
            pt.y + slopeM azim * (buf0.x - pt.x),
            zhit pt.x pt.y pt.z polar
              (-cyl.bNV pt azim / (2 * cyl.aNV azim))
              (pt.y + slopeM azim * (buf0.x - pt.x))⟩) := by
  unfold ZCylinder.intersectNV
  rw [if_neg (by rw [hd]; norm_num), if_pos hd]

/-- Non-vertical branch, positive discriminant: two candidates, each
filtered (Surface.cpp:923-967). -/
theorem intersectNV_pos {cyl : ZCylinder} {pt : Point} {azim : ℝ}
    (polar : ℝ) (buf0 : Point) (hd : 0 < cyl.discrNV pt azim) :
    cyl.intersectNV pt azim polar buf0 =
      ((keepIf azim polar pt.y pt.z
          (candNV pt azim polar
            ((-cyl.bNV pt azim + Real.sqrt (cyl.discrNV pt azim)) /
              (2 * cyl.aNV azim))) ++
        keepIf azim polar pt.y pt.z
          (candNV pt azim polar
            ((-cyl.bNV pt azim - Real.sqrt (cyl.discrNV pt azim)) /
              (2 * cyl.aNV azim)))).length,
        keepIf azim polar pt.y pt.z
          (candNV pt azim polar
            ((-cyl.bNV pt azim + Real.sqrt (cyl.discrNV pt azim)) /
              (2 * cyl.aNV azim))) ++
        keepIf azim polar pt.y pt.z
          (candNV pt azim polar
            ((-cyl.bNV pt azim - Real.sqrt (cyl.discrNV pt azim)) /
              (2 * cyl.aNV azim)))) := by
  unfold ZCylinder.intersectNV
  rw [if_neg (by linarith), if_neg (by linarith [ne_of_gt hd])]

/-- A root of the vertical-branch quadratic of a constructor-built
ZCylinder lies on the circle of radius r around the center. -/
theorem v_root_on_circle (x y r : ℝ) (id auto : ℤ) (nm : String)
    (x0 yr : ℝ)
    (hroot : (ZCylinder.construct x y r id nm auto).1.aV * yr ^ 2 +
      (ZCylinder.construct x y r id nm auto).1.bV * yr +
      (ZCylinder.construct x y r id nm auto).1.cV x0 = 0) :
    (x0 - x) ^ 2 + (yr - y) ^ 2 = r ^ 2 := by
  have hA : (ZCylinder.construct x y r id nm auto).1.A = 1 := rfl
  have hB : (ZCylinder.construct x y r id nm auto).1.B = 1 := rfl
  have hC : (ZCylinder.construct x y r id nm auto).1.C = -2 * x := rfl
  have hD : (ZCylinder.construct x y r id nm auto).1.D = -2 * y := rfl
  have hE : (ZCylinder.construct x y r id nm auto).1.E =
      x * x + y * y - r * r := rfl
  unfold ZCylinder.aV ZCylinder.bV ZCylinder.cV at hroot
  rw [hA, hB, hC, hD, hE] at hroot
  linear_combination hroot

/-- A root of the non-vertical-branch quadratic of a constructor-built
ZCylinder, paired with its line ordinate, lies on the circle of radius r
around the center. -/
theorem nv_root_on_circle (x y r : ℝ) (id auto : ℤ) (nm : String)
    (pt : Point) (azim xr : ℝ)
    (hroot : (ZCylinder.construct x y r id nm auto).1.aNV azim * xr ^ 2 +
      (ZCylinder.construct x y r id nm auto).1.bNV pt azim * xr +
      (ZCylinder.construct x y r id nm auto).1.cNV pt azim = 0) :
    (xr - x) ^ 2 + (pt.y + slopeM azim * (xr - pt.x) - y) ^ 2 = r ^ 2 := by
  have hA : (ZCylinder.construct x y r id nm auto).1.A = 1 := rfl
  have hB : (ZCylinder.construct x y r id nm auto).1.B = 1 := rfl
  have hC : (ZCylinder.construct x y r id nm auto).1.C = -2 * x := rfl
  have hD : (ZCylinder.construct x y r id nm auto).1.D = -2 * y := rfl
  have hE : (ZCylinder.construct x y r id nm auto).1.E =
      x * x + y * y - r * r := rfl
  unfold ZCylinder.aNV ZCylinder.bNV ZCylinder.cNV qNV at hroot
  rw [hA, hB, hC, hD, hE] at hroot
  linear_combination hroot

/-- C1 (amended): for a constructor-built ZCylinder the returned count
follows the discriminant of the active branch only as an upper bound —
negative discriminant returns 0, zero discriminant returns AT MOST 1, and
positive discriminant returns AT MOST 2, because each root is still subject
to the directional filter (which can reject roots, e.g. every root when
azim = 0, as the counterexample shows); in the positive-discriminant case
every returned point lies exactly at distance r from the center (in exact
real arithmetic). -/
theorem zcyl_intersection_discr_counts (cyl : ZCylinder) (x y r : ℝ)
    (id auto : ℤ) (nm : String) (pt buf0 : Point) (azim polar : ℝ)
    (hcyl : cyl = (ZCylinder.construct x y r id nm auto).1) :
    (vertCond azim →
      (cyl.discrV pt.x < 0 →
        (cyl.intersection pt azim polar buf0).1 = 0) ∧
      (cyl.discrV pt.x = 0 →
        (cyl.intersection pt azim polar buf0).1 ≤ 1) ∧
      (0 < cyl.discrV pt.x →
        (cyl.intersection pt azim polar buf0).1 ≤ 2 ∧
        ∀ p ∈ (cyl.intersection pt azim polar buf0).2,
          (p.x - x) ^ 2 + (p.y - y) ^ 2 = r ^ 2)) ∧
    (¬ vertCond azim →
      (cyl.discrNV pt azim < 0 →
        (cyl.intersection pt azim polar buf0).1 = 0) ∧
      (cyl.discrNV pt azim = 0 →
        (cyl.intersection pt azim polar buf0).1 ≤ 1) ∧
      (0 < cyl.discrNV pt azim →
        (cyl.intersection pt azim polar buf0).1 ≤ 2 ∧
        ∀ p ∈ (cyl.intersection pt azim polar buf0).2,
          (p.x - x) ^ 2 + (p.y - y) ^ 2 = r ^ 2)) := by
  constructor
  · intro hv
    have hI : cyl.intersection pt azim polar buf0 =
        cyl.intersectV pt azim polar := by
      unfold ZCylinder.intersection
      rw [if_pos hv]
    refine ⟨?_, ?_, ?_⟩
    · intro hd
      rw [hI, intersectV_neg azim polar hd]
    · intro hd
      rw [hI, intersectV_zero azim polar hd]
      exact keepIf_length_le _ _ _ _ _
    · intro hd
      have haV : cyl.aV = 1 := by
        rw [hcyl]
        show (1 : ℝ) * 1 = 1
        norm_num
      have hs : Real.sqrt (cyl.discrV pt.x) ^ 2 =
          cyl.bV * cyl.bV - 4 * cyl.aV * cyl.cV pt.x :=
        Real.sq_sqrt hd.le
      constructor
      · rw [hI, intersectV_pos azim polar hd]
        simp only [List.length_append]
        have l1 := keepIf_length_le azim polar pt.y pt.z
          (candV pt polar
            ((-cyl.bV + Real.sqrt (cyl.discrV pt.x)) / (2 * cyl.aV)))
        have l2 := keepIf_length_le azim polar pt.y pt.z
          (candV pt polar
            ((-cyl.bV - Real.sqrt (cyl.discrV pt.x)) / (2 * cyl.aV)))
        omega
      · intro p hp
        rw [hI, intersectV_pos azim polar hd] at hp
        have hmem := List.mem_append.mp hp
        have hy : ∃ yr : ℝ,
            (yr = (-cyl.bV + Real.sqrt (cyl.discrV pt.x)) / (2 * cyl.aV) ∨
              yr = (-cyl.bV - Real.sqrt (cyl.discrV pt.x)) / (2 * cyl.aV)) ∧
            p = candV pt polar yr := by
          rcases hmem with hm | hm
          · exact ⟨_, Or.inl rfl, mem_keepIf hm⟩
          · exact ⟨_, Or.inr rfl, mem_keepIf hm⟩
        obtain ⟨yr, hyr, rfl⟩ := hy
        have hroot : cyl.aV * yr ^ 2 + cyl.bV * yr + cyl.cV pt.x = 0 :=
          quad_root_zero _ _ _ _ _ (by rw [haV]; norm_num) hs hyr
        show (pt.x - x) ^ 2 + (yr - y) ^ 2 = r ^ 2
        rw [hcyl] at hroot
        exact v_root_on_circle x y r id auto nm pt.x yr hroot
  · intro hv
    have hI : cyl.intersection pt azim polar buf0 =
        cyl.intersectNV pt azim polar buf0 := by
      unfold ZCylinder.intersection
      rw [if_neg hv]
    refine ⟨?_, ?_, ?_⟩
    · intro hd
      rw [hI, intersectNV_neg polar buf0 hd]
    · intro hd
      rw [hI, intersectNV_zero polar buf0 hd]
      exact keepIf_length_le _ _ _ _ _
    · intro hd
      have haNV : cyl.aNV azim = 1 + slopeM azim * slopeM azim := by
        rw [hcyl]
        show (1 : ℝ) + 1 * 1 * slopeM azim * slopeM azim = _
        ring
      have haNV0 : cyl.aNV azim ≠ 0 := by
        rw [haNV]
        nlinarith [mul_self_nonneg (slopeM azim)]
      have hs : Real.sqrt (cyl.discrNV pt azim) ^ 2 =
          cyl.bNV pt azim * cyl.bNV pt azim -
            4 * cyl.aNV azim * cyl.cNV pt azim :=
        Real.sq_sqrt hd.le
      constructor
      · rw [hI, intersectNV_pos polar buf0 hd]
        simp only [List.length_append]
        have l1 := keepIf_length_le azim polar pt.y pt.z
          (candNV pt azim polar
            ((-cyl.bNV pt azim + Real.sqrt (cyl.discrNV pt azim)) /
              (2 * cyl.aNV azim)))
        have l2 := keepIf_length_le azim polar pt.y pt.z
          (candNV pt azim polar
            ((-cyl.bNV pt azim - Real.sqrt (cyl.discrNV pt azim)) /
              (2 * cyl.aNV azim)))
        omega
      · intro p hp
        rw [hI, intersectNV_pos polar buf0 hd] at hp
        have hmem := List.mem_append.mp hp
        have hx : ∃ xr : ℝ,
            (xr = (-cyl.bNV pt azim + Real.sqrt (cyl.discrNV pt azim)) /
                (2 * cyl.aNV azim) ∨
              xr = (-cyl.bNV pt azim - Real.sqrt (cyl.discrNV pt azim)) /
                (2 * cyl.aNV azim)) ∧
            p = candNV pt azim polar xr := by
          rcases hmem with hm | hm
          · exact ⟨_, Or.inl rfl, mem_keepIf hm⟩
          · exact ⟨_, Or.inr rfl, mem_keepIf hm⟩
        obtain ⟨xr, hxr, rfl⟩ := hx
        have hroot : cyl.aNV azim * xr ^ 2 + cyl.bNV pt azim * xr +
            cyl.cNV pt azim = 0 :=
          quad_root_zero _ _ _ _ _ haNV0 hs hxr
        show (xr - x) ^ 2 +
          (pt.y + slopeM azim * (xr - pt.x) - y) ^ 2 = r ^ 2
        rw [hcyl] at hroot
        exact nv_root_on_circle x y r id auto nm pt azim xr hroot

/-- The slope of the azim = 0 ray is 0. -/
theorem slopeM_zero : slopeM 0 = 0 := by simp [slopeM]

/-- A candidate whose y-ordinate equals the origin's is always rejected. -/
theorem keepIf_eq_nil_of_y_eq {azim polar y0 z0 : ℝ} {p : Point}
    (h : p.y = y0) : keepIf azim polar y0 z0 p = [] := by
  apply keepIf_eq_nil
  rw [h]
  exact not_dirOk_self _ _ _ _ _

/-- Along an azim = 0 ray every non-vertical candidate keeps the origin's
y-ordinate. -/
theorem candNV_y_zero (pt : Point) (polar xr : ℝ) :
    (candNV pt 0 polar xr).y = pt.y := by
  show pt.y + slopeM 0 * (xr - pt.x) = pt.y
  rw [slopeM_zero]
  ring

/-- Discriminant of the through-center test ray: origin (-2, 0, 0), azim 0,
against the unit cylinder at the origin. -/
theorem unitCyl_discrNV_center : unitCyl.discrNV ⟨-2, 0, 0⟩ 0 = 4 := by
  unfold ZCylinder.discrNV ZCylinder.aNV ZCylinder.bNV ZCylinder.cNV qNV
  rw [slopeM_zero, show unitCyl.A = 1 from rfl, show unitCyl.B = 1 from rfl,
    show unitCyl.C = -2 * 0 from rfl, show unitCyl.D = -2 * 0 from rfl,
    show unitCyl.E = 0 * 0 + 0 * 0 - 1 * 1 from rfl]
  norm_num

/-- Discriminant of the tangent test ray: origin (-2, 1, 0), azim 0, against
the unit cylinder at the origin (the line y = 1 is tangent). -/
theorem unitCyl_discrNV_tangent : unitCyl.discrNV ⟨-2, 1, 0⟩ 0 = 0 := by
  unfold ZCylinder.discrNV ZCylinder.aNV ZCylinder.bNV ZCylinder.cNV qNV
  rw [slopeM_zero, show unitCyl.A = 1 from rfl, show unitCyl.B = 1 from rfl,
    show unitCyl.C = -2 * 0 from rfl, show unitCyl.D = -2 * 0 from rfl,
    show unitCyl.E = 0 * 0 + 0 * 0 - 1 * 1 from rfl]
  norm_num

/-- Counterexample to C1 as stated: against the unit cylinder centered at
the origin, the ray from (-2, 0, 0) with azim = 0, polar = π/2 passes
through the center (it reaches (0, 0) at parametric distance 2 > 0) yet
`ZCylinder::intersection` returns 0, not 2 — the directional filter rejects
both roots because the candidate y-ordinate equals the origin's and neither
strict comparison holds.  Likewise the tangent ray from (-2, 1, 0) with
azim = 0 has discriminant exactly 0 yet returns 0, not 1. -/
theorem zcyl_c1_counterexample :
    ((0 : ℝ) < 2 ∧
      (-2 : ℝ) + 2 * (Real.sin (π / 2) * Real.cos 0) = 0 ∧
      (0 : ℝ) + 2 * (Real.sin (π / 2) * Real.sin 0) = 0) ∧
    (unitCyl.intersection ⟨-2, 0, 0⟩ 0 (π / 2) ⟨0, 0, 0⟩).1 = 0 ∧
    unitCyl.discrNV ⟨-2, 1, 0⟩ 0 = 0 ∧
    (unitCyl.intersection ⟨-2, 1, 0⟩ 0 (π / 2) ⟨0, 0, 0⟩).1 = 0 := by
  refine ⟨⟨by norm_num, ?_, ?_⟩, ?_, unitCyl_discrNV_tangent, ?_⟩
  · rw [Real.sin_pi_div_two, Real.cos_zero]
    norm_num
  · rw [Real.sin_pi_div_two, Real.sin_zero]
    norm_num
  · have hI : unitCyl.intersection ⟨-2, 0, 0⟩ 0 (π / 2) ⟨0, 0, 0⟩ =
        unitCyl.intersectNV ⟨-2, 0, 0⟩ 0 (π / 2) ⟨0, 0, 0⟩ := by
      unfold ZCylinder.intersection
      rw [if_neg not_vertCond_zero]
    rw [hI, intersectNV_pos (π / 2) ⟨0, 0, 0⟩
      (by rw [unitCyl_discrNV_center]; norm_num)]
    rw [keepIf_eq_nil_of_y_eq (candNV_y_zero _ _ _)]
    rw [keepIf_eq_nil_of_y_eq (candNV_y_zero _ _ _)]
    rfl
  · have hI : unitCyl.intersection ⟨-2, 1, 0⟩ 0 (π / 2) ⟨0, 0, 0⟩ =
        unitCyl.intersectNV ⟨-2, 1, 0⟩ 0 (π / 2) ⟨0, 0, 0⟩ := by
      unfold ZCylinder.intersection
      rw [if_neg not_vertCond_zero]
    rw [hI, intersectNV_zero (π / 2) ⟨0, 0, 0⟩ unitCyl_discrNV_tangent]
    rw [keepIf_eq_nil_of_y_eq (by dsimp only; rw [slopeM_zero]; ring)]
    rfl

/-- Witness for the amended C1: the through-center ray has positive
discriminant, so the count is at most 2 and every returned point lies at
distance 1 from the center (here the returned list is in fact empty). -/
theorem zcyl_intersection_discr_counts_witness :
    (unitCyl.intersection ⟨-2, 0, 0⟩ 0 (π / 2) ⟨0, 0, 0⟩).1 ≤ 2 ∧
    ∀ p ∈ (unitCyl.intersection ⟨-2, 0, 0⟩ 0 (π / 2) ⟨0, 0, 0⟩).2,
      (p.x - 0) ^ 2 + (p.y - 0) ^ 2 = 1 ^ 2 :=
  ((zcyl_intersection_discr_counts unitCyl 0 0 1 9 10000 "" ⟨-2, 0, 0⟩
      ⟨0, 0, 0⟩ 0 (π / 2) rfl).2 not_vertCond_zero).2.2
    (by rw [unitCyl_discrNV_center]; norm_num)

end OpenMOC
